import Mathlib

/-!
Shallow embedding of the Unicity MCP gaming server
(payment correlation and access coordinator) for verification.

The embedding mirrors, definition for definition:
- `src/src/nostr-service.ts` — `NostrService`: the `pendingPayments` map
  (a JS `Map` keyed by `requestId`, iterated in insertion order, modelled
  as an association list), `handleIncomingTransfer`, the registration
  performed by `sendPaymentRequest`/`waitForPayment`, and the timeout
  callback scheduled by `waitForPayment`;
- `src/unnamed/part_002` — the MCP server entry: `cleanUnicityId`,
  `resolvePubkey` (with its module-level `pubkeyCache`), and the payment
  path of the `confirm_payment` tool;
- `src/src/config.ts` — `loadConfig`;
- the `PaymentTracker` class (source embedded in `src/Dockerfile`):
  `grantDayPass`, `getPass`.

JavaScript primitives used by that code (`String.prototype.replace` with
a string pattern, which replaces only the first occurrence;
`String.prototype.trim`; string truthiness; `BigInt(string)`;
`parseInt(s, 10)`) are modelled explicitly below. `Date.now()` is an
explicit `now : Int` argument, and `setTimeout` callbacks are explicit
transition functions, so every operation is a pure state transition.
-/

/-- JS whitespace test for `String.prototype.trim` (ASCII fragment;
the inputs in this development contain no exotic whitespace). -/
def jsIsSpace (c : Char) : Bool :=
  c = ' ' || c = '\t' || c = '\n' || c = '\r'

/-- `String.prototype.trim` on the character list: drop whitespace at
both ends. -/
def jsTrimList (l : List Char) : List Char :=
  ((l.dropWhile jsIsSpace).reverse.dropWhile jsIsSpace).reverse

/-- `String.prototype.trim`. -/
def jsTrim (s : String) : String :=
  String.mk (jsTrimList s.toList)

/-- `String.prototype.replace` with a string pattern, on character
lists: replace only the FIRST occurrence of `pat` (this is the JS
semantics; a string pattern is never replaced globally). -/
def jsReplaceFirstList (pat repl : List Char) : List Char → List Char
  | [] => if pat.isPrefixOf ([] : List Char) then repl else []
  | c :: rest =>
    if pat.isPrefixOf (c :: rest) then repl ++ (c :: rest).drop pat.length
    else c :: jsReplaceFirstList pat repl rest

/-- `s.replace(pat, repl)` for a string `pat` (first occurrence only). -/
def jsReplaceFirst (s pat repl : String) : String :=
  String.mk (jsReplaceFirstList pat.toList repl.toList s.toList)

/-- The handle-normalization chain appearing verbatim in
`cleanUnicityId` (part_002), `NostrService.resolvePubkey` and
`loadConfig`: drop the first occurrence of the literal substring
`@unicity`, then the first `@` sigil, then trim. -/
def jsCleanHandle (s : String) : String :=
  jsTrim (jsReplaceFirst (jsReplaceFirst s "@unicity" "") "@" "")

/-- `cleanUnicityId` from the MCP server entry (part_002, lines 65-67):
`unicityId.replace(atUnicity, emp).replace(at, emp).trim()`. -/
def cleanUnicityId (unicityId : String) : String :=
  jsCleanHandle unicityId

/-! ## Association-list model of a JS `Map` with string keys

A JS `Map` iterates in insertion order; `set` on a fresh key appends,
`set` on an existing key updates the value in place, `delete` removes
the entry. Keys in a real `Map` are unique, which the operations below
preserve. -/

/-- `map.has(k)`. -/
def alContains {α : Type} (k : String) : List (String × α) → Bool
  | [] => false
  | (k', _) :: rest => k' = k || alContains k rest

/-- `map.get(k)` (first entry with that key; unique in a real `Map`). -/
def alLookup {α : Type} (k : String) : List (String × α) → Option α
  | [] => none
  | (k', v) :: rest => if k' = k then some v else alLookup k rest

/-- `map.set(k, v)`: update in place if present, else append. -/
def alSet {α : Type} (k : String) (v : α) : List (String × α) → List (String × α)
  | [] => [(k, v)]
  | (k', v') :: rest => if k' = k then (k, v) :: rest else (k', v') :: alSet k v rest

/-- `map.delete(k)`: remove the entry with key `k`. -/
def alErase {α : Type} (k : String) : List (String × α) → List (String × α)
  | [] => []
  | (k', v') :: rest => if k' = k then rest else (k', v') :: alErase k rest

/-! ## NostrService: pending payments, settlement matching, timeouts -/

/-- `interface PendingPayment` (nostr-service.ts, lines 12-20). The
`resolve` callback is represented by the resolution records
`(requestId, outcome)` that each transition emits: resolving the future
registered under `requestId` with that boolean. `bigint` amounts are
`Int`. -/
structure PendingPayment where
  requestId : String
  unicityId : String
  userPubkey : String
  amount : Int
  coinId : String
  createdAt : Int
deriving Repr, DecidableEq

/-- `NostrService.pendingPayments : Map<string, PendingPayment>`
(nostr-service.ts, line 27), keyed by `requestId`. -/
abbrev PendingMap : Type := List (String × PendingPayment)

/-- An inbound token-transfer event, as far as `handleIncomingTransfer`
can observe it: `TokenTransferProtocol.getSender(event)` and
`TokenTransferProtocol.getAmount(event)` (which may be `undefined`,
hence `Option`). `replyRef` carries an explicit correlation identifier
(a reply reference naming the payment request's `requestId`) when the
transport includes one; the handler never reads it. -/
structure TransferEvent where
  senderPubkey : String
  amount : Option Int
  replyRef : Option String
deriving Repr, DecidableEq

/-- The match condition of the scan loop in `handleIncomingTransfer`
(nostr-service.ts, lines 91-95):
`pending.userPubkey === senderPubkey && amount !== undefined &&
amount >= pending.amount`. -/
def transferMatches (senderPubkey : String) (amount : Option Int)
    (pending : PendingPayment) : Bool :=
  pending.userPubkey == senderPubkey &&
    (match amount with
     | some a => pending.amount ≤ a
     | none => false)

/-- The `for (const [key, pending] of this.pendingPayments)` loop of
`handleIncomingTransfer` (nostr-service.ts, lines 90-101): on the first
matching entry it resolves that entry's future with `true`, deletes the
entry and returns; later entries are not examined. Returns the updated
map and the emitted resolutions. -/
def handleScan (senderPubkey : String) (amount : Option Int) :
    PendingMap → PendingMap × List (String × Bool)
  | [] => ([], [])
  | (key, pending) :: rest =>
    if transferMatches senderPubkey amount pending then
      (rest, [(key, true)])
    else
      let r := handleScan senderPubkey amount rest
      ((key, pending) :: r.1, r.2)

/-- `handleIncomingTransfer` (nostr-service.ts, lines 75-107): extracts
only the sender pubkey and the amount from the event and runs the scan.
Any correlation identifier on the event (`replyRef`) is ignored. -/
def handleIncomingTransfer (event : TransferEvent) (pendingPayments : PendingMap) :
    PendingMap × List (String × Bool) :=
  handleScan event.senderPubkey event.amount pendingPayments

/-- The timeout callback scheduled by `waitForPayment`
(nostr-service.ts, lines 155-160): when it fires, if the entry is still
present it is deleted and the future resolves `false`; otherwise the
callback does nothing. -/
def fireTimeout (requestId : String) (pendingPayments : PendingMap) :
    PendingMap × List (String × Bool) :=
  if alContains requestId pendingPayments then
    (alErase requestId pendingPayments, [(requestId, false)])
  else (pendingPayments, [])

/-- `interface Config` (config.ts, lines 3-28). `bigint` is `Int`; the
two `parseInt`-produced fields are `Option Int`, `none` standing for
the JS `NaN` that `parseInt` yields on unparsable input. -/
structure Config where
  relayUrl : String
  aggregatorUrl : String
  aggregatorApiKey : String
  privateKeyHex : String
  nonce : String
  nametag : String
  coinId : String
  amount : Int
  dayPassDurationHours : Option Int
  paymentTimeoutSeconds : Option Int
  dataDir : String
deriving Repr, DecidableEq

/-- The payload `client.sendPaymentRequest` dispatches over the
transport (nostr-service.ts, lines 127-133). -/
structure OutboundSend where
  userPubkey : String
  amount : Int
  coinId : String
  recipientNametag : String
  message : String
  requestId : String
deriving Repr, DecidableEq

/-- The payment path of the `confirm_payment` tool (part_002, lines
340-346): it unconditionally calls `nostrService.sendPaymentRequest`
— which dispatches one outbound payment request (nostr-service.ts,
lines 127-133) — and immediately invokes the returned `waitForPayment`,
which stores a fresh `PendingPayment` under `requestId`
(nostr-service.ts, lines 140-152). The `Math.random`-generated
`requestId` and `Date.now()` are explicit arguments. Returns the
updated pending map and the list of dispatched outbound sends. -/
def confirmPaymentPath (config : Config) (unicityId userPubkey requestId : String)
    (now : Int) (pendingPayments : PendingMap) : PendingMap × List OutboundSend :=
  let send : OutboundSend :=
    { userPubkey := userPubkey
      amount := config.amount
      coinId := config.coinId
      recipientNametag := config.nametag
      message := "Gaming day pass for @" ++ unicityId
      requestId := requestId }
  let pending : PendingPayment :=
    { requestId := requestId
      unicityId := unicityId
      userPubkey := userPubkey
      amount := config.amount
      coinId := config.coinId
      createdAt := now }
  (alSet requestId pending pendingPayments, [send])

/-! ## PaymentTracker (source embedded in src/Dockerfile) -/

/-- `interface DayPass` (types.ts, embedded in part_001). -/
structure DayPass where
  unicityId : String
  grantedAt : Int
  expiresAt : Int
deriving Repr, DecidableEq

/-- `class PaymentTracker`: the `dayPasses` map (keyed by the
lowercased unicity id) and `durationMs`. -/
structure PaymentTracker where
  dayPasses : List (String × DayPass)
  durationMs : Int
deriving Repr, DecidableEq

/-- `new PaymentTracker(durationHours)`: `durationMs = durationHours *
60 * 60 * 1000`, empty map. -/
def PaymentTracker.create (durationHours : Int) : PaymentTracker :=
  { dayPasses := [], durationMs := durationHours * 60 * 60 * 1000 }

/-- `PaymentTracker.grantDayPass` (Dockerfile-embedded source, lines
76-85): build the pass with `grantedAt = now`, `expiresAt = now +
durationMs`, store it under `unicityId.toLowerCase()` and return it.
`Date.now()` is the explicit `now`; `String.prototype.toLowerCase` is
modelled by `String.toLower` (the ids used here are ASCII). -/
def PaymentTracker.grantDayPass (tracker : PaymentTracker) (unicityId : String)
    (now : Int) : DayPass × PaymentTracker :=
  let pass : DayPass :=
    { unicityId := unicityId, grantedAt := now, expiresAt := now + tracker.durationMs }
  (pass, { tracker with dayPasses := alSet unicityId.toLower pass tracker.dayPasses })

/-- `PaymentTracker.getPass` (Dockerfile-embedded source, lines
93-101): look up under the lowercased id; absent gives `null`; an
expired pass (`now >= expiresAt`) is deleted lazily and gives `null`;
otherwise the stored pass is returned with the map untouched. -/
def PaymentTracker.getPass (tracker : PaymentTracker) (unicityId : String)
    (now : Int) : Option DayPass × PaymentTracker :=
  match alLookup unicityId.toLower tracker.dayPasses with
  | none => (none, tracker)
  | some pass =>
    if pass.expiresAt ≤ now then
      (none, { tracker with dayPasses := alErase unicityId.toLower tracker.dayPasses })
    else
      (some pass, tracker)

/-! ## The pubkey cache of the MCP server entry (part_002) -/

/-- One entry of the module-level `pubkeyCache` (part_002, line 31). -/
structure PubkeyCacheEntry where
  pubkey : String
  timestamp : Int
deriving Repr, DecidableEq

/-- `PUBKEY_CACHE_TTL_MS = 5 * 60 * 1000` (part_002, line 32). -/
def PUBKEY_CACHE_TTL_MS : Int := 5 * 60 * 1000

/-- `NostrService.resolvePubkey` (nostr-service.ts, lines 109-115):
cleans the id again and queries the relay directory
(`client.queryPubkeyByNametag`, the external collaborator, modelled as
the oracle argument). -/
def nostrResolvePubkey (queryPubkeyByNametag : String → Option String)
    (unicityId : String) : Option String :=
  queryPubkeyByNametag (jsCleanHandle unicityId)

/-- Result of one `resolvePubkey` call: the returned value, the cache
afterwards, and whether the external directory was queried. -/
structure ResolveOutcome where
  result : Option String
  cache : List (String × PubkeyCacheEntry)
  queried : Bool
deriving Repr, DecidableEq

/-- `resolvePubkey` of the MCP server entry (part_002, lines 46-62):
return a cached pubkey when the entry's age is within
`PUBKEY_CACHE_TTL_MS`; otherwise query the directory via
`nostrService.resolvePubkey` and cache the result only when it is
truthy (a `null` — and, by JS truthiness, an empty-string — result is
not stored). Both `Date.now()` reads of the call are the single
instant `now`. -/
def resolvePubkey (queryPubkeyByNametag : String → Option String) (now : Int)
    (cache : List (String × PubkeyCacheEntry)) (unicityId : String) : ResolveOutcome :=
  let cleanId := jsCleanHandle unicityId
  let hit : Option String :=
    match alLookup cleanId cache with
    | some cached =>
      if now - cached.timestamp < PUBKEY_CACHE_TTL_MS then some cached.pubkey else none
    | none => none
  match hit with
  | some pk => { result := some pk, cache := cache, queried := false }
  | none =>
    match nostrResolvePubkey queryPubkeyByNametag cleanId with
    | some pk =>
      if pk = "" then
        { result := some pk, cache := cache, queried := true }
      else
        { result := some pk
          cache := alSet cleanId { pubkey := pk, timestamp := now } cache
          queried := true }
    | none => { result := none, cache := cache, queried := true }

/-! ## loadConfig (config.ts) -/

/-- JS truthiness of a `string | undefined` value: `undefined` and the
empty string are falsy. -/
def jsFalsy : Option String → Bool
  | none => true
  | some s => s = ""

/-- `process.env.KEY || dflt`: the default applies on a falsy value. -/
def envOr (env : String → Option String) (key dflt : String) : String :=
  match env key with
  | some s => if s = "" then dflt else s
  | none => dflt

/-- Value of a decimal digit character. -/
def decDigitVal (c : Char) : Option Nat :=
  if c.isDigit then some (c.toNat - 48) else none

/-- Value of a hexadecimal digit character. -/
def hexDigitVal (c : Char) : Option Nat :=
  if c.isDigit then some (c.toNat - 48)
  else if 'a' ≤ c ∧ c ≤ 'f' then some (c.toNat - 97 + 10)
  else if 'A' ≤ c ∧ c ≤ 'F' then some (c.toNat - 65 + 10)
  else none

/-- Value of an octal digit character (`0`-`7` only; `BigInt("0o8")`
throws a `SyntaxError` in JS). -/
def octDigitVal (c : Char) : Option Nat :=
  if '0' ≤ c ∧ c ≤ '7' then some (c.toNat - 48) else none

/-- Value of a binary digit character (`0` or `1` only; `BigInt("0b2")`
throws a `SyntaxError` in JS). -/
def binDigitVal (c : Char) : Option Nat :=
  if c = '0' ∨ c = '1' then some (c.toNat - 48) else none

/-- Interpret a nonempty digit run in the given base; `none` when empty
or when any character is not a digit of the base. -/
def digitsVal (base : Nat) (val : Char → Option Nat) : List Char → Option Nat
  | [] => none
  | l =>
    l.foldl
      (fun acc c =>
        match acc, val c with
        | some a, some d => some (a * base + d)
        | _, _ => none)
      (some 0)

/-- `BigInt(string)`: trims whitespace; an empty remainder is `0n`; an
optional sign is allowed on a decimal digit run; `0x`/`0o`/`0b`
prefixes select the radix (unsigned); anything else throws a
`SyntaxError`, modelled as `none`. -/
def jsBigIntList : List Char → Option Int
  | l =>
    match jsTrimList l with
    | [] => some 0
    | '+' :: ds => (digitsVal 10 decDigitVal ds).map Int.ofNat
    | '-' :: ds => (digitsVal 10 decDigitVal ds).map (fun n => -(n : Int))
    | '0' :: 'x' :: ds => (digitsVal 16 hexDigitVal ds).map Int.ofNat
    | '0' :: 'X' :: ds => (digitsVal 16 hexDigitVal ds).map Int.ofNat
    | '0' :: 'o' :: ds => (digitsVal 8 octDigitVal ds).map Int.ofNat
    | '0' :: 'O' :: ds => (digitsVal 8 octDigitVal ds).map Int.ofNat
    | '0' :: 'b' :: ds => (digitsVal 2 binDigitVal ds).map Int.ofNat
    | '0' :: 'B' :: ds => (digitsVal 2 binDigitVal ds).map Int.ofNat
    | ds => (digitsVal 10 decDigitVal ds).map Int.ofNat

/-- `BigInt(s)` on a string. -/
def jsBigInt (s : String) : Option Int :=
  jsBigIntList s.toList

/-- `parseInt(s, 10)`: skip leading whitespace, take an optional sign
and then the longest leading digit run; `none` models the `NaN`
returned when no digit follows. -/
def jsParseInt10 (s : String) : Option Int :=
  let t := s.toList.dropWhile jsIsSpace
  let core : List Char → Option Nat := fun l =>
    digitsVal 10 decDigitVal (l.takeWhile Char.isDigit)
  match t with
  | '-' :: rest => (core rest).map (fun n => -(n : Int))
  | '+' :: rest => (core rest).map Int.ofNat
  | rest => (core rest).map Int.ofNat

/-- `loadConfig` (config.ts, lines 30-77). `env` is `process.env`;
`genKey` and `genNonce` stand for the two `randomBytes(32)` draws used
when the corresponding variables are falsy. A thrown `Error` is
`Except.error` with its message; the `BigInt` call on
`PAYMENT_AMOUNT || "1000000000"` throws when the value is not a valid
BigInt literal. -/
def loadConfig (env : String → Option String) (genKey genNonce : String) :
    Except String Config :=
  let envKey := env "MCP_PRIVATE_KEY_HEX"
  let envNonce := env "MCP_NONCE_HEX"
  let privateKeyHex := if jsFalsy envKey then genKey else envKey.getD ""
  let nonceAfterKey : Option String :=
    if jsFalsy envKey then some genNonce else envNonce
  let nonce := if jsFalsy nonceAfterKey then genNonce else nonceAfterKey.getD ""
  if jsFalsy (env "MCP_NAMETAG") then
    Except.error "MCP_NAMETAG environment variable is required"
  else if jsFalsy (env "PAYMENT_COIN_ID") then
    Except.error "PAYMENT_COIN_ID environment variable is required"
  else
    let nametag := (env "MCP_NAMETAG").getD ""
    let coinId := (env "PAYMENT_COIN_ID").getD ""
    let cleanNametag := jsCleanHandle nametag
    match jsBigInt (envOr env "PAYMENT_AMOUNT" "1000000000") with
    | none => Except.error "Cannot convert PAYMENT_AMOUNT to a BigInt"
    | some amount =>
      Except.ok
        { relayUrl := envOr env "NOSTR_RELAY_URL" "wss://nostr-relay.testnet.unicity.network"
          aggregatorUrl := envOr env "AGGREGATOR_URL" "https://aggregator-test.unicity.network"
          aggregatorApiKey := envOr env "AGGREGATOR_API_KEY" "sk_06365a9c44654841a366068bcfc68986"
          privateKeyHex := privateKeyHex
          nonce := nonce
          nametag := cleanNametag
          coinId := coinId
          amount := amount
          dayPassDurationHours := jsParseInt10 (envOr env "DAY_PASS_HOURS" "24")
          paymentTimeoutSeconds := jsParseInt10 (envOr env "PAYMENT_TIMEOUT_SECONDS" "120")
          dataDir := envOr env "DATA_DIR" "./data" }

/-! ## Steps and reachability of the pending-payments state -/

/-- One transition of the `pendingPayments` map: a `confirm_payment`
payment-path call, an inbound transfer event, or a timeout callback
firing. -/
inductive NostrStep : PendingMap → PendingMap → Prop where
  | confirm (config : Config) (unicityId userPubkey requestId : String) (now : Int)
      (st : PendingMap) :
      NostrStep st (confirmPaymentPath config unicityId userPubkey requestId now st).1
  | transfer (event : TransferEvent) (st : PendingMap) :
      NostrStep st (handleIncomingTransfer event st).1
  | timeout (requestId : String) (st : PendingMap) :
      NostrStep st (fireTimeout requestId st).1

/-- States of `pendingPayments` reachable from the empty map at
service start. -/
def ReachablePending (st : PendingMap) : Prop :=
  Relation.ReflTransGen NostrStep [] st

/-- Number of pending payment requests stored for a given (normalized)
account id. -/
def pendingForAccount (accountId : String) (st : PendingMap) : Nat :=
  (st.filter (fun e => e.2.unicityId = accountId)).length

/-! ## Concrete sample values used by the closed statements below -/

/-- A concrete configuration (as loaded at startup) for concrete runs. -/
def cfgSample : Config :=
  { relayUrl := "wss://relay"
    aggregatorUrl := "https://agg"
    aggregatorApiKey := "key"
    privateKeyHex := "aa"
    nonce := "bb"
    nametag := "gaming-mcp"
    coinId := "coin-1"
    amount := 10
    dayPassDurationHours := some 24
    paymentTimeoutSeconds := some 120
    dataDir := "./data" }

/-- A concrete pending payment request. -/
def pSample : PendingPayment :=
  { requestId := "r1", unicityId := "alice", userPubkey := "pk-alice"
    amount := 3, coinId := "coin-1", createdAt := 0 }

/-- A concrete pending payment request for a second account. -/
def pBob : PendingPayment :=
  { requestId := "rB", unicityId := "bob", userPubkey := "pk-bob"
    amount := 5, coinId := "coin-1", createdAt := 0 }

/-- The `pendingPayments` state after two `confirm_payment`
payment-path calls for the account `alice`, run from the empty map. -/
def pendTwo : PendingMap :=
  (confirmPaymentPath cfgSample "alice" "pk-alice" "req2" 1
    (confirmPaymentPath cfgSample "alice" "pk-alice" "req1" 0 []).1).1

/-- An environment whose required settings are both present but whose
`PAYMENT_AMOUNT` is not a valid BigInt literal. -/
def envAmountBad : String → Option String := fun key =>
  if key = "MCP_NAMETAG" then some "gaming-mcp"
  else if key = "PAYMENT_COIN_ID" then some "coin-1"
  else if key = "PAYMENT_AMOUNT" then some "ten tokens"
  else none

/-- An environment with exactly the two required settings. -/
def envGood : String → Option String := fun key =>
  if key = "MCP_NAMETAG" then some "gaming-mcp"
  else if key = "PAYMENT_COIN_ID" then some "coin-1"
  else none

/-- An environment missing `MCP_NAMETAG`. -/
def envNoTag : String → Option String := fun key =>
  if key = "PAYMENT_COIN_ID" then some "coin-1" else none

/-- A pubkey cache holding one entry for `alice` written at time 0. -/
def cacheSample : List (String × PubkeyCacheEntry) :=
  [("alice", { pubkey := "pk-cached", timestamp := 0 })]

/-- The condition of the cache hit in `resolvePubkey` (part_002, line
51): a cached entry exists and its age is within the freshness
window. -/
def cacheHasFreshEntry (cache : List (String × PubkeyCacheEntry)) (now : Int)
    (cleanId : String) : Bool :=
  match alLookup cleanId cache with
  | some cached => now - cached.timestamp < PUBKEY_CACHE_TTL_MS
  | none => false

/-- `Except.ok`-ness of a `loadConfig` run: `false` exactly when the
startup raised. -/
def configOk : Except String Config → Bool
  | Except.ok _ => true
  | Except.error _ => false

/-! ## Basic facts about the map model -/

/-- Keys of an association list, in order. -/
def alKeys {α : Type} (l : List (String × α)) : List String :=
  l.map Prod.fst

theorem alContains_iff_mem {α : Type} (k : String) (l : List (String × α)) :
    alContains k l = true ↔ k ∈ alKeys l := by
  induction l with
  | nil => simp [alContains, alKeys]
  | cons e rest ih =>
    obtain ⟨k', v'⟩ := e
    simp only [alContains, alKeys, List.map_cons, List.mem_cons, Bool.or_eq_true,
      decide_eq_true_eq, ih]
    constructor
    · rintro (rfl | h)
      · exact Or.inl rfl
      · exact Or.inr h
    · rintro (rfl | h)
      · exact Or.inl rfl
      · exact Or.inr h

theorem alLookup_alSet_self {α : Type} (k : String) (v : α) (l : List (String × α)) :
    alLookup k (alSet k v l) = some v := by
  induction l with
  | nil => simp [alSet, alLookup]
  | cons e rest ih =>
    obtain ⟨k', v'⟩ := e
    by_cases h : k' = k
    · simp [alSet, alLookup, h]
    · simp [alSet, alLookup, h, ih]

theorem alContains_alSet_self {α : Type} (k : String) (v : α) (l : List (String × α)) :
    alContains k (alSet k v l) = true := by
  induction l with
  | nil => simp [alSet, alContains]
  | cons e rest ih =>
    obtain ⟨k', v'⟩ := e
    by_cases h : k' = k
    · simp [alSet, alContains, h]
    · simp [alSet, alContains, h, ih]

theorem alContains_alSet_ne {α : Type} {k k' : String} (h : k' ≠ k) (v : α)
    (l : List (String × α)) : alContains k (alSet k' v l) = alContains k l := by
  induction l with
  | nil => simp [alSet, alContains, h]
  | cons e rest ih =>
    obtain ⟨k'', v''⟩ := e
    by_cases hk : k'' = k'
    · subst hk
      simp [alSet, alContains, h]
    · simp [alSet, alContains, hk, ih]

theorem alErase_sublist {α : Type} (k : String) (l : List (String × α)) :
    List.Sublist (alErase k l) l := by
  induction l with
  | nil => simp [alErase]
  | cons e rest ih =>
    obtain ⟨k', v'⟩ := e
    by_cases h : k' = k
    · simp only [alErase, if_pos h]
      exact List.Sublist.cons _ (List.Sublist.refl rest)
    · simp only [alErase, if_neg h]
      exact List.Sublist.cons₂ (k', v') ih

theorem mem_alKeys_alSet {α : Type} (a k : String) (v : α) (l : List (String × α)) :
    a ∈ alKeys (alSet k v l) ↔ a = k ∨ a ∈ alKeys l := by
  induction l with
  | nil => simp [alSet, alKeys]
  | cons e rest ih =>
    obtain ⟨k', v'⟩ := e
    by_cases h : k' = k
    · subst h
      simp [alSet, alKeys]
    · simp only [alSet, if_neg h, alKeys, List.map_cons, List.mem_cons] at *
      rw [ih]
      tauto

theorem alKeys_nodup_alSet {α : Type} (k : String) (v : α) {l : List (String × α)}
    (h : (alKeys l).Nodup) : (alKeys (alSet k v l)).Nodup := by
  induction l with
  | nil => simp [alSet, alKeys]
  | cons e rest ih =>
    obtain ⟨k', v'⟩ := e
    simp only [alKeys, List.map_cons, List.nodup_cons] at h
    by_cases hk : k' = k
    · subst hk
      simpa [alSet, alKeys, List.nodup_cons] using h
    · simp only [alSet, if_neg hk, alKeys, List.map_cons, List.nodup_cons]
      refine ⟨?_, ih h.2⟩
      intro hmem
      rcases (mem_alKeys_alSet k' k v rest).1 hmem with rfl | hmem'
      · exact hk rfl
      · exact h.1 hmem'

theorem alContains_alErase_self {α : Type} (k : String) {l : List (String × α)}
    (h : (alKeys l).Nodup) : alContains k (alErase k l) = false := by
  induction l with
  | nil => simp [alErase, alContains]
  | cons e rest ih =>
    obtain ⟨k', v'⟩ := e
    simp only [alKeys, List.map_cons, List.nodup_cons] at h
    by_cases hk : k' = k
    · subst hk
      simp only [alErase, if_pos rfl]
      rw [Bool.eq_false_iff]
      intro hc
      exact h.1 ((alContains_iff_mem k' rest).1 hc)
    · simp [alErase, alContains, hk, ih h.2]

theorem handleScan_fst_sublist (senderPubkey : String) (amount : Option Int)
    (l : PendingMap) : List.Sublist (handleScan senderPubkey amount l).1 l := by
  induction l with
  | nil => simp [handleScan]
  | cons e rest ih =>
    obtain ⟨key, pending⟩ := e
    by_cases h : transferMatches senderPubkey amount pending
    · simp only [handleScan, if_pos h]
      exact List.Sublist.cons _ (List.Sublist.refl rest)
    · simp only [handleScan, if_neg h]
      exact List.Sublist.cons₂ (key, pending) ih

theorem handleScan_res_mem {senderPubkey : String} {amount : Option Int}
    {l : PendingMap} {k : String} {b : Bool}
    (h : (k, b) ∈ (handleScan senderPubkey amount l).2) :
    k ∈ alKeys l ∧ b = true := by
  induction l with
  | nil => simp [handleScan] at h
  | cons e rest ih =>
    obtain ⟨key, pending⟩ := e
    by_cases hm : transferMatches senderPubkey amount pending
    · simp only [handleScan, if_pos hm, List.mem_singleton, Prod.mk.injEq] at h
      obtain ⟨rfl, rfl⟩ := h
      exact ⟨by simp [alKeys], rfl⟩
    · simp only [handleScan, if_neg hm] at h
      obtain ⟨hk, hb⟩ := ih h
      exact ⟨by simp [alKeys, hk, alKeys] at hk ⊢; exact Or.inr hk, hb⟩

theorem handleScan_true_not_contains {senderPubkey : String} {amount : Option Int}
    {l : PendingMap} (hnd : (alKeys l).Nodup) {k : String}
    (h : (k, true) ∈ (handleScan senderPubkey amount l).2) :
    alContains k (handleScan senderPubkey amount l).1 = false := by
  induction l with
  | nil => simp [handleScan] at h
  | cons e rest ih =>
    obtain ⟨key, pending⟩ := e
    simp only [alKeys, List.map_cons, List.nodup_cons] at hnd
    by_cases hm : transferMatches senderPubkey amount pending
    · simp only [handleScan, if_pos hm, List.mem_singleton, Prod.mk.injEq] at h
      obtain ⟨rfl, -⟩ := h
      simp only [handleScan, if_pos hm]
      rw [Bool.eq_false_iff]
      intro hc
      exact hnd.1 ((alContains_iff_mem k rest).1 hc)
    · simp only [handleScan, if_neg hm] at h ⊢
      have hk : k ∈ alKeys rest := (handleScan_res_mem h).1
      have hne : key ≠ k := fun hkey => hnd.1 (hkey ▸ hk)
      simp [alContains, hne, ih hnd.2 h]

/-! ## Claim theorems -/

/-- C10: `cleanUnicityId` is not idempotent. `replace` with a string
pattern removes only the first occurrence of the sigil, so
`cleanUnicityId` applied to the spelling `@@alice` yields `@alice`,
which still contains `@`, and a second application yields the different
string `alice`; hence the two spellings `@@alice` and `@alice` of the
same handle normalize to the two different map keys `@alice` and
`alice`. -/
theorem cleanUnicityId_not_idempotent :
    cleanUnicityId "@@alice" = "@alice" ∧
    ("@alice".toList.contains '@') = true ∧
    cleanUnicityId (cleanUnicityId "@@alice") = "alice" ∧
    cleanUnicityId (cleanUnicityId "@@alice") ≠ cleanUnicityId "@@alice" ∧
    cleanUnicityId "@@alice" ≠ cleanUnicityId "@alice" := by
  refine ⟨by decide, by decide, by decide, by decide, by decide⟩

/-- C4: with a pending request stored in `pendingPayments`, an inbound
transfer whose sender equals the request's `userPubkey` and whose
amount is at least the required amount resolves that request's future
with `true` and deletes the entry; a transfer with a mismatched sender
or an insufficient amount leaves the map unchanged and resolves
nothing, so the request stays pending. -/
theorem settlement_match_resolves (k : String) (p : PendingPayment)
    (sender : String) (a : Int) (ref : Option String) :
    (p.userPubkey = sender ∧ p.amount ≤ a →
      handleIncomingTransfer ⟨sender, some a, ref⟩ [(k, p)] = ([], [(k, true)])) ∧
    (p.userPubkey ≠ sender ∨ a < p.amount →
      handleIncomingTransfer ⟨sender, some a, ref⟩ [(k, p)] = ([(k, p)], [])) := by
  constructor
  · rintro ⟨h1, h2⟩
    simp [handleIncomingTransfer, handleScan, transferMatches, h1, h2]
  · intro h
    have hm : transferMatches sender (some a) p = false := by
      rcases h with h | h
      · simp [transferMatches, h]
      · simp [transferMatches, not_le.2 h]
    simp [handleIncomingTransfer, handleScan, hm]

/-- Witness for C4 at concrete inputs: a sufficient transfer from the
right sender resolves and removes the request; a transfer with too
small an amount is a no-op. -/
theorem settlement_match_resolves_witness :
    handleIncomingTransfer ⟨"pk-alice", some 5, none⟩ [("r1", pSample)] =
      ([], [("r1", true)]) ∧
    handleIncomingTransfer ⟨"pk-alice", some 2, none⟩ [("r1", pSample)] =
      ([("r1", pSample)], []) :=
  ⟨(settlement_match_resolves "r1" pSample "pk-alice" 5 none).1 (by decide),
   (settlement_match_resolves "r1" pSample "pk-alice" 2 none).2 (by decide)⟩

/-- C9: one inbound transfer resolves at most one pending request.
When the map is `before ++ (k, p) :: after` with no entry of `before`
matching and `p` matching, the scan resolves exactly the request `k`
with `true`, removes exactly that entry and keeps every other entry —
including any still-satisfiable entries of `after` — pending and
untouched. -/
theorem settlement_first_match_only (sender : String) (a : Option Int)
    (before after : PendingMap) (k : String) (p : PendingPayment)
    (h₁ : ∀ e ∈ before, transferMatches sender a e.2 = false)
    (h₂ : transferMatches sender a p = true) :
    handleScan sender a (before ++ (k, p) :: after) = (before ++ after, [(k, true)]) := by
  induction before with
  | nil => simp [handleScan, h₂]
  | cons e rest ih =>
    obtain ⟨k', p'⟩ := e
    have he : transferMatches sender a p' = false := h₁ (k', p') (List.mem_cons_self _ _)
    have ih' := ih fun e hm => h₁ e (List.mem_cons_of_mem _ hm)
    simp [handleScan, he, ih']

/-- Witness for C9 at concrete inputs: with a non-matching first entry
and two satisfiable entries behind it, exactly the first satisfiable
entry (insertion order) is resolved and removed; the later satisfiable
entry stays pending. -/
theorem settlement_first_match_only_witness :
    handleScan "pk-alice" (some 5)
        [("rB", pBob), ("r1", pSample),
         ("r2", { pSample with requestId := "r2" })] =
      ([("rB", pBob), ("r2", { pSample with requestId := "r2" })], [("r1", true)]) :=
  settlement_first_match_only "pk-alice" (some 5) [("rB", pBob)]
    [("r2", { pSample with requestId := "r2" })] "r1" pSample
    (by decide) (by decide)

/-- C5: a pending request's future is resolved exactly once, by
whichever of settlement-match and timeout fires first. If the inbound
event resolved the future of `k` with `true` (the entry is then gone
from the map), the later timeout callback for `k` changes nothing and
emits no resolution — no spurious late `false` after a `true`. And if
the timeout fired first on a present entry, it resolves exactly
`(k, false)` and no later event can resolve `k` with `true`. -/
theorem resolve_exactly_once (st : PendingMap) (hnd : (alKeys st).Nodup) (k : String) :
    (∀ event : TransferEvent, (k, true) ∈ (handleIncomingTransfer event st).2 →
      fireTimeout k (handleIncomingTransfer event st).1 =
        ((handleIncomingTransfer event st).1, [])) ∧
    (alContains k st = true →
      (fireTimeout k st).2 = [(k, false)] ∧
      ∀ event : TransferEvent,
        (k, true) ∉ (handleIncomingTransfer event (fireTimeout k st).1).2) := by
  constructor
  · intro event hres
    have hc : alContains k (handleScan event.senderPubkey event.amount st).1 = false :=
      handleScan_true_not_contains hnd hres
    simp [handleIncomingTransfer, fireTimeout, hc]
  · intro hk
    have hst : fireTimeout k st = (alErase k st, [(k, false)]) := by
      simp [fireTimeout, hk]
    refine ⟨by simp [hst], ?_⟩
    intro event hmem
    have hkmem : k ∈ alKeys (fireTimeout k st).1 := (handleScan_res_mem hmem).1
    rw [hst] at hkmem
    exact absurd ((alContains_iff_mem k (alErase k st)).2 hkmem)
      (by simp [alContains_alErase_self k hnd])

/-- Witness for C5 at concrete inputs: after a matching transfer
resolves the single pending request with `true`, the timeout callback
for the same requestId is a no-op; and after a timeout resolves it with
`false`, a later matching transfer resolves nothing for it. -/
theorem resolve_exactly_once_witness :
    fireTimeout "r1" (handleIncomingTransfer ⟨"pk-alice", some 5, none⟩ [("r1", pSample)]).1 =
      ((handleIncomingTransfer ⟨"pk-alice", some 5, none⟩ [("r1", pSample)]).1, []) ∧
    (fireTimeout "r1" [("r1", pSample)]).2 = [("r1", false)] ∧
    ("r1", true) ∉
      (handleIncomingTransfer ⟨"pk-alice", some 5, none⟩
        (fireTimeout "r1" [("r1", pSample)]).1).2 :=
  ⟨(resolve_exactly_once [("r1", pSample)] (by decide) "r1").1
      ⟨"pk-alice", some 5, none⟩ (by decide),
   ((resolve_exactly_once [("r1", pSample)] (by decide) "r1").2 (by decide)).1,
   ((resolve_exactly_once [("r1", pSample)] (by decide) "r1").2 (by decide)).2
      ⟨"pk-alice", some 5, none⟩⟩

/-- C6: `grantDayPass` stores a window with `grantedAt = now` and
`expiresAt = grantedAt + durationMs` exactly, where the tracker built
from the configured duration has `durationMs = hours * 60 * 60 * 1000`;
while the window is unexpired, `getPass` returns exactly that stored
window and leaves the tracker state untouched, so repeated reads return
the identical window with no drift. -/
theorem dayPass_roundtrip (tracker : PaymentTracker) (unicityId : String)
    (now hours : Int) :
    (PaymentTracker.create hours).durationMs = hours * 60 * 60 * 1000 ∧
    (tracker.grantDayPass unicityId now).1.grantedAt = now ∧
    (tracker.grantDayPass unicityId now).1.expiresAt =
      (tracker.grantDayPass unicityId now).1.grantedAt + tracker.durationMs ∧
    ∀ t : Int, t < (tracker.grantDayPass unicityId now).1.expiresAt →
      (tracker.grantDayPass unicityId now).2.getPass unicityId t =
        (some (tracker.grantDayPass unicityId now).1,
         (tracker.grantDayPass unicityId now).2) := by
  refine ⟨rfl, rfl, rfl, ?_⟩
  intro t ht
  simp only [PaymentTracker.grantDayPass, PaymentTracker.getPass,
    alLookup_alSet_self] at ht ⊢
  rw [if_neg (not_le.2 ht)]

/-- Witness for C6 at concrete inputs: grant a 24-hour pass at time 0
to `Alice` on a fresh tracker, then read it back at time 1000. -/
theorem dayPass_roundtrip_witness :
    ((PaymentTracker.create 24).grantDayPass "Alice" 0).1.expiresAt =
      ((PaymentTracker.create 24).grantDayPass "Alice" 0).1.grantedAt +
        (PaymentTracker.create 24).durationMs ∧
    ((PaymentTracker.create 24).grantDayPass "Alice" 0).2.getPass "Alice" 1000 =
      (some ((PaymentTracker.create 24).grantDayPass "Alice" 0).1,
       ((PaymentTracker.create 24).grantDayPass "Alice" 0).2) :=
  ⟨(dayPass_roundtrip (PaymentTracker.create 24) "Alice" 0 24).2.2.1,
   (dayPass_roundtrip (PaymentTracker.create 24) "Alice" 0 24).2.2.2 1000 (by decide)⟩

/-- C7: `resolvePubkey` never caches a not-found resolution: when there
is no fresh cache entry and the directory lookup returns `null`, the
call returns `null` with the cache unchanged, and a second call at any
later time queries the directory again; a cached pubkey is returned
without querying the directory exactly when the entry's age is within
the freshness window — the third conjunct characterizes the external
query: it is performed precisely when no fresh entry exists, so a stale
or absent entry always forces re-resolution (whatever the directory
answers), and an answer served without querying can only come from a
fresh entry. -/
theorem pubkeyCache_no_negative_caching (query : String → Option String)
    (now later : Int) (cache : List (String × PubkeyCacheEntry)) (unicityId : String) :
    (cacheHasFreshEntry cache now (jsCleanHandle unicityId) = false →
      nostrResolvePubkey query (jsCleanHandle unicityId) = none →
      now ≤ later →
      resolvePubkey query now cache unicityId =
        { result := none, cache := cache, queried := true } ∧
      (resolvePubkey query later cache unicityId).queried = true) ∧
    (∀ c : PubkeyCacheEntry, alLookup (jsCleanHandle unicityId) cache = some c →
      now - c.timestamp < PUBKEY_CACHE_TTL_MS →
      resolvePubkey query now cache unicityId =
        { result := some c.pubkey, cache := cache, queried := false }) ∧
    (resolvePubkey query now cache unicityId).queried =
      !cacheHasFreshEntry cache now (jsCleanHandle unicityId) := by
  refine ⟨?_, ?_, ?_⟩
  · intro hfresh hquery hle
    constructor
    · cases halu : alLookup (jsCleanHandle unicityId) cache with
      | none => simp [resolvePubkey, halu, hquery]
      | some c =>
        have hstale : ¬ now - c.timestamp < PUBKEY_CACHE_TTL_MS := by
          simpa [cacheHasFreshEntry, halu] using hfresh
        simp [resolvePubkey, halu, hstale, hquery]
    · cases halu : alLookup (jsCleanHandle unicityId) cache with
      | none =>
        cases hq : nostrResolvePubkey query (jsCleanHandle unicityId) with
        | none => simp [resolvePubkey, halu, hq]
        | some pk => by_cases hpk : pk = "" <;> simp [resolvePubkey, halu, hq, hpk]
      | some c =>
        have hstale : ¬ now - c.timestamp < PUBKEY_CACHE_TTL_MS := by
          simpa [cacheHasFreshEntry, halu] using hfresh
        have hstale' : ¬ later - c.timestamp < PUBKEY_CACHE_TTL_MS := by
          omega
        cases hq : nostrResolvePubkey query (jsCleanHandle unicityId) with
        | none => simp [resolvePubkey, halu, hstale', hq]
        | some pk => by_cases hpk : pk = "" <;> simp [resolvePubkey, halu, hstale', hq, hpk]
  · intro c halu hfreshc
    simp [resolvePubkey, halu, hfreshc]
  · cases halu : alLookup (jsCleanHandle unicityId) cache with
    | none =>
      cases hq : nostrResolvePubkey query (jsCleanHandle unicityId) with
      | none => simp [resolvePubkey, cacheHasFreshEntry, halu, hq]
      | some pk =>
        by_cases hpk : pk = "" <;>
          simp [resolvePubkey, cacheHasFreshEntry, halu, hq, hpk]
    | some c =>
      by_cases hf : now - c.timestamp < PUBKEY_CACHE_TTL_MS
      · simp [resolvePubkey, cacheHasFreshEntry, halu, hf]
      · cases hq : nostrResolvePubkey query (jsCleanHandle unicityId) with
        | none => simp [resolvePubkey, cacheHasFreshEntry, halu, hf, hq]
        | some pk =>
          by_cases hpk : pk = "" <;>
            simp [resolvePubkey, cacheHasFreshEntry, halu, hf, hq, hpk]

/-- Witness for C7 at concrete inputs: with a stale entry for `alice`
written at time 0 and a directory that knows nobody, the call at the
freshness-window boundary returns `null`, leaves the cache unchanged
and queries the directory, as does a later retry; with the same entry
still fresh at time 1000, the cached pubkey is returned without a
directory query; and with the entry stale and a directory that now
answers, the call still queries the directory instead of serving the
stale entry. -/
theorem pubkeyCache_no_negative_caching_witness :
    (resolvePubkey (fun _ => none) 300000 cacheSample "alice" =
      { result := none, cache := cacheSample, queried := true } ∧
     (resolvePubkey (fun _ => none) 300001 cacheSample "alice").queried = true) ∧
    resolvePubkey (fun _ => none) 1000 cacheSample "alice" =
      { result := some "pk-cached", cache := cacheSample, queried := false } ∧
    (resolvePubkey (fun _ => some "pk-new") 300000 cacheSample "alice").queried = true :=
  ⟨(pubkeyCache_no_negative_caching (fun _ => none) 300000 300001 cacheSample "alice").1
      (by decide) (by decide) (by decide),
   (pubkeyCache_no_negative_caching (fun _ => none) 1000 300001 cacheSample "alice").2.1
      { pubkey := "pk-cached", timestamp := 0 } (by decide) (by decide),
   ((pubkeyCache_no_negative_caching (fun _ => some "pk-new") 300000 300001 cacheSample
      "alice").2.2).trans (by decide)⟩

/-- C1 counterexample: two `confirm_payment` payment-path calls for the
same account `alice`, the second while the first is still pending. The
claim says the second call joins the existing request and sends no new
outbound request (one outbound send in total, one pending request); in
the code each call dispatches its own outbound send (two in total) and
registers its own independent pending request (two entries). -/
theorem confirmPayment_no_dedup_cex :
    (confirmPaymentPath cfgSample "alice" "pk-alice" "req1" 0 []).2.length = 1 ∧
    (confirmPaymentPath cfgSample "alice" "pk-alice" "req2" 1
        (confirmPaymentPath cfgSample "alice" "pk-alice" "req1" 0 []).1).2.length = 1 ∧
    (confirmPaymentPath cfgSample "alice" "pk-alice" "req1" 0 []).2.length +
        (confirmPaymentPath cfgSample "alice" "pk-alice" "req2" 1
          (confirmPaymentPath cfgSample "alice" "pk-alice" "req1" 0 []).1).2.length ≠ 1 ∧
    (confirmPaymentPath cfgSample "alice" "pk-alice" "req2" 1
        (confirmPaymentPath cfgSample "alice" "pk-alice" "req1" 0 []).1).1.length = 2 := by
  refine ⟨by decide, by decide, by decide, by decide⟩

/-- C1 amended: there is no obtain-or-join. Every invocation of
`confirm_payment`'s payment path dispatches exactly one outbound
payment request; a second call for the same account while the first is
pending dispatches a second outbound send and registers a second,
independent pending request under its own fresh requestId (each with
its own future) instead of appending a waiter to the first. -/
theorem confirmPayment_always_sends (config : Config)
    (unicityId userPubkey r1 r2 : String) (t1 t2 : Int) (st : PendingMap)
    (hne : r1 ≠ r2) :
    (confirmPaymentPath config unicityId userPubkey r1 t1 st).2.length = 1 ∧
    (confirmPaymentPath config unicityId userPubkey r2 t2
        (confirmPaymentPath config unicityId userPubkey r1 t1 st).1).2.length = 1 ∧
    alContains r1 (confirmPaymentPath config unicityId userPubkey r2 t2
        (confirmPaymentPath config unicityId userPubkey r1 t1 st).1).1 = true ∧
    alContains r2 (confirmPaymentPath config unicityId userPubkey r2 t2
        (confirmPaymentPath config unicityId userPubkey r1 t1 st).1).1 = true := by
    refine ⟨rfl, rfl, ?_, ?_⟩
    · show alContains r1 (alSet r2 _ (alSet r1 _ st)) = true
      rw [alContains_alSet_ne (Ne.symm hne), alContains_alSet_self]
    · exact alContains_alSet_self r2 _ _

/-- Witness for C1 amended at concrete inputs. -/
theorem confirmPayment_always_sends_witness :
    (confirmPaymentPath cfgSample "alice" "pk-alice" "req1" 0 []).2.length = 1 ∧
    alContains "req1" (confirmPaymentPath cfgSample "alice" "pk-alice" "req2" 1
        (confirmPaymentPath cfgSample "alice" "pk-alice" "req1" 0 []).1).1 = true :=
  ⟨(confirmPayment_always_sends cfgSample "alice" "pk-alice" "req1" "req2" 0 1 []
      (by decide)).1,
   (confirmPayment_always_sends cfgSample "alice" "pk-alice" "req1" "req2" 0 1 []
      (by decide)).2.2.1⟩

/-- C3 counterexample: a pending request `rB` for `bob`, and an inbound
event that carries the explicit correlation identifier `rB` (equal to
that request's requestId) but originates from a sender other than bob's
pubkey. The claim says the handler checks the identifier first and
resolves exactly request `rB`; the code never reads the identifier,
finds no sender/amount match, resolves nothing and leaves the request
pending. -/
theorem correlation_id_ignored_cex :
    (TransferEvent.mk "pk-carol" (some 100) (some "rB")).replyRef =
      some pBob.requestId ∧
    handleIncomingTransfer ⟨"pk-carol", some 100, some "rB"⟩ [("rB", pBob)] =
      ([("rB", pBob)], []) ∧
    ("rB", true) ∉
      (handleIncomingTransfer ⟨"pk-carol", some 100, some "rB"⟩ [("rB", pBob)]).2 := by
  refine ⟨by decide, by decide, by decide⟩

/-- C3 amended: the settlement handler never inspects a correlation
identifier: its result is a function of the event's sender pubkey and
amount only (the sender/amount scan is used for every event, whether or
not a correlation identifier is present). -/
theorem handleIncomingTransfer_ignores_replyRef (sender : String)
    (amount : Option Int) (ref ref' : Option String) (st : PendingMap) :
    handleIncomingTransfer ⟨sender, amount, ref⟩ st =
      handleIncomingTransfer ⟨sender, amount, ref'⟩ st ∧
    handleIncomingTransfer ⟨sender, amount, ref⟩ st = handleScan sender amount st :=
  ⟨rfl, rfl⟩

/-- One `NostrStep` preserves distinctness of the `pendingPayments`
keys. -/
theorem nostrStep_nodup {a b : PendingMap} (h : NostrStep a b)
    (hnd : (alKeys a).Nodup) : (alKeys b).Nodup := by
  cases h with
  | confirm config unicityId userPubkey requestId now =>
    exact alKeys_nodup_alSet requestId _ hnd
  | transfer event =>
    exact hnd.sublist ((handleScan_fst_sublist event.senderPubkey event.amount a).map _)
  | timeout requestId =>
    by_cases hc : alContains requestId a = true
    · simpa [fireTimeout, hc] using hnd.sublist ((alErase_sublist requestId a).map _)
    · simpa [fireTimeout, hc] using hnd

/-- Every reachable `pendingPayments` state has pairwise-distinct
requestId keys. -/
theorem reachablePending_nodup {st : PendingMap} (h : ReachablePending st) :
    (alKeys st).Nodup := by
  induction h with
  | refl => simp [alKeys]
  | tail _ hstep ih => exact nostrStep_nodup hstep ih

/-- C2 counterexample: the state `pendTwo`, reached from the empty map
by two `confirm_payment` payment-path calls for `alice`, holds two
pending payment requests for the normalized account id `alice`
simultaneously — the map is keyed by requestId, not by account, so the
per-account at-most-one invariant fails at a reachable state. -/
theorem pendingPayments_per_account_cex :
    ReachablePending pendTwo ∧
    pendingForAccount "alice" pendTwo = 2 ∧
    ¬ pendingForAccount "alice" pendTwo ≤ 1 := by
  refine ⟨?_, by decide, by decide⟩
  exact Relation.ReflTransGen.tail
    (Relation.ReflTransGen.tail Relation.ReflTransGen.refl
      (NostrStep.confirm cfgSample "alice" "pk-alice" "req1" 0 []))
    (NostrStep.confirm cfgSample "alice" "pk-alice" "req2" 1 _)

/-- C2 amended: the `pendingPayments` map is keyed by requestId, and at
every reachable state it holds at most one entry per requestId (the
keys are pairwise distinct); several pending requests for the same
account can coexist. Once a request is resolved — matched by an inbound
transfer or timed out — its entry is removed from the map. -/
theorem pendingPayments_keyed_by_requestId (st : PendingMap) :
    (ReachablePending st → (alKeys st).Nodup) ∧
    ((alKeys st).Nodup →
      (∀ (event : TransferEvent) (k : String),
        (k, true) ∈ (handleIncomingTransfer event st).2 →
        alContains k (handleIncomingTransfer event st).1 = false) ∧
      (∀ k : String, (k, false) ∈ (fireTimeout k st).2 →
        alContains k (fireTimeout k st).1 = false)) := by
  refine ⟨reachablePending_nodup, fun hnd => ⟨?_, ?_⟩⟩
  · intro event k hres
    exact handleScan_true_not_contains hnd hres
  · intro k hres
    by_cases hc : alContains k st = true
    · simpa [fireTimeout, hc] using alContains_alErase_self k hnd
    · simp [fireTimeout, hc] at hres

/-- Witness for C2 amended at concrete inputs: the state holding the
single request `r1` has distinct keys, and both resolution paths remove
the entry. -/
theorem pendingPayments_keyed_by_requestId_witness :
    alContains "r1"
      (handleIncomingTransfer ⟨"pk-alice", some 5, none⟩ [("r1", pSample)]).1 = false ∧
    alContains "r1" (fireTimeout "r1" [("r1", pSample)]).1 = false :=
  ⟨((pendingPayments_keyed_by_requestId [("r1", pSample)]).2 (by decide)).1
      ⟨"pk-alice", some 5, none⟩ "r1" (by decide),
   ((pendingPayments_keyed_by_requestId [("r1", pSample)]).2 (by decide)).2
      "r1" (by decide)⟩

/-- C8 counterexample: an environment in which both required settings
(`MCP_NAMETAG` and `PAYMENT_COIN_ID`) are present, yet `loadConfig`
raises: `PAYMENT_AMOUNT` is set to a string that is not a valid BigInt
literal, and the `BigInt(process.env.PAYMENT_AMOUNT || ...)` call
throws. This refutes the claim's converse direction, that presence of
the two required settings suffices for `loadConfig` to return without
raising. -/
theorem loadConfig_required_settings_cex :
    jsFalsy (envAmountBad "MCP_NAMETAG") = false ∧
    jsFalsy (envAmountBad "PAYMENT_COIN_ID") = false ∧
    configOk (loadConfig envAmountBad "genkey" "gennonce") = false := by
  refine ⟨by decide, by decide, by decide⟩

/-- C8 amended: whenever a required setting (`MCP_NAMETAG` or
`PAYMENT_COIN_ID`) is absent (or empty, which JS truthiness treats the
same), `loadConfig` raises, so the process does not start; conversely,
when both required settings are present and the effective
`PAYMENT_AMOUNT` string (the default `1000000000` when unset or empty)
is a valid BigInt literal, `loadConfig` returns a configuration without
raising. -/
theorem loadConfig_required_settings (env : String → Option String)
    (genKey genNonce : String) :
    (jsFalsy (env "MCP_NAMETAG") = true ∨ jsFalsy (env "PAYMENT_COIN_ID") = true →
      configOk (loadConfig env genKey genNonce) = false) ∧
    (jsFalsy (env "MCP_NAMETAG") = false →
      jsFalsy (env "PAYMENT_COIN_ID") = false →
      (jsBigInt (envOr env "PAYMENT_AMOUNT" "1000000000")).isSome = true →
      configOk (loadConfig env genKey genNonce) = true) := by
  constructor
  · intro h
    by_cases h1 : jsFalsy (env "MCP_NAMETAG") = true
    · simp [loadConfig, h1, configOk]
    · have h2 : jsFalsy (env "PAYMENT_COIN_ID") = true := by tauto
      simp [loadConfig, h1, h2, configOk]
  · intro h1 h2 h3
    obtain ⟨a, ha⟩ := Option.isSome_iff_exists.1 h3
    simp [loadConfig, h1, h2, ha, configOk]

/-- Witness for C8 amended at concrete environments: with
`MCP_NAMETAG` missing the startup raises; with both required settings
present (and the default payment amount) it returns a configuration. -/
theorem loadConfig_required_settings_witness :
    configOk (loadConfig envNoTag "genkey" "gennonce") = false ∧
    configOk (loadConfig envGood "genkey" "gennonce") = true :=
  ⟨(loadConfig_required_settings envNoTag "genkey" "gennonce").1 (by decide),
   (loadConfig_required_settings envGood "genkey" "gennonce").2
      (by decide) (by decide) (by decide)⟩
